import Mathlib

/-!
Shallow embedding of the sniply_api authentication core: sessions
(`internal/session`), the auth service (`internal/auth/service.go`), API keys,
the Redis fixed-window rate limiter (`internal/ratelimit`), the session stores
(memory and Redis), and the HTTP auth middleware
(`internal/httpapi/router.go`).

Time is modelled as `Int` (an instant on the wall clock); durations are `Int`
in the same unit.  Go's zero `time.Time` is modelled as the integer `0`
(`IsZero` becomes `= 0`).  Randomness (session IDs, CSRF tokens) is modelled
by passing the generated strings as explicit arguments.  Context/cancellation
is not modelled; the wall-clock reading `time.Now()` inside an operation is
passed as an explicit `now` argument.
-/

namespace Sniply

/-- `strings.TrimSpace`: drop whitespace from both ends (computed on the
character list so the kernel can evaluate it). -/
def trimSpace (s : String) : String :=
  ⟨((s.data.dropWhile Char.isWhitespace).reverse.dropWhile
      Char.isWhitespace).reverse⟩

/-- `strings.ToLower` (ASCII, which covers every string the auth core
compares), computed on the character list. -/
def toLowerStr (s : String) : String :=
  ⟨s.data.map Char.toLower⟩

/-- `strings.Contains(s, string(c))` for a one-character needle. -/
def containsChar (s : String) (c : Char) : Bool :=
  s.data.contains c

/-- Accumulator pass of `strings.Fields`: split on whitespace runs. -/
def fieldsAux : List Char → List Char → List String
  | [], acc => if acc = [] then [] else [⟨acc.reverse⟩]
  | c :: rest, acc =>
      if c.isWhitespace then
        if acc = [] then fieldsAux rest []
        else ⟨acc.reverse⟩ :: fieldsAux rest []
      else fieldsAux rest (c :: acc)

/-- `strings.Fields`. -/
def fields (s : String) : List String :=
  fieldsAux s.data []

/-- `apperrors.Kind` from `internal/apperrors`. -/
inductive Kind where
  | invalidInput
  | unauthorized
  | forbidden
  | notFound
  | conflict
  | rateLimited
  | internalErr
deriving DecidableEq, Repr

/-- `apperrors.Error`: kind, message and (for rate limiting) a retry-after
duration.  The wrapped `Err` chain is not modelled. -/
structure AppError where
  kind : Kind
  message : String
  retryAfter : Int := 0
deriving DecidableEq, Repr

/-- `session.Session` from `internal/session/session.go`.
The `csrfToken` field is Modelled from the spec: the struct literal in
`src`'s `session.go` omits it, but `internal/auth/service.go` (in `src`)
reads `sess.CSRFToken` and the auth tests construct sessions with it, so the
field itself is missing source; spec §3 says a session carries a "CSRF token
(generated once, immutable for the session's life)". -/
structure Session where
  id : String
  userID : String
  role : String
  csrfToken : String
  createdAt : Int
  lastRefreshedAt : Int
  expiresAt : Int
deriving DecidableEq, Repr

/-- Errors a session `Store` implementation can return: `session.ErrNotFound`
or any other (backend-unavailability) error. -/
inductive StoreErr where
  | notFound
  | unavailable
deriving DecidableEq, Repr

/-- The `session.Store` interface.  Each operation also receives the current
time (implementations consult the wall clock) and returns the new backend
state. -/
structure Store (σ : Type) where
  set : σ → (now : Int) → (id : String) → Session → (ttl : Int) → Option StoreErr × σ
  get : σ → (now : Int) → (id : String) → Except StoreErr Session × σ
  del : σ → (now : Int) → (id : String) → Option StoreErr × σ

/-- The in-memory map of `session.MemoryStore` (`map[string]Session`). -/
abbrev MemItems := List (String × Session)

/-- Association-list lookup for the memory store's map. -/
def memFind : MemItems → String → Option Session
  | [], _ => none
  | (k, s) :: rest, id => if k = id then some s else memFind rest id

/-- `delete(s.items, id)` on the memory store's map. -/
def memRemove : MemItems → String → MemItems
  | [], _ => []
  | (k, s) :: rest, id =>
      if k = id then memRemove rest id else (k, s) :: memRemove rest id

/-- `s.items[id] = sess` on the memory store's map. -/
def memSet (items : MemItems) (id : String) (s : Session) : MemItems :=
  (id, s) :: memRemove items id

/-- `MemoryStore.Get`: missing key is `ErrNotFound`; an entry whose
`ExpiresAt` is strictly before now is deleted and reported `ErrNotFound`. -/
def memGet (items : MemItems) (now : Int) (id : String) :
    Except StoreErr Session × MemItems :=
  match memFind items id with
  | none => (.error .notFound, items)
  | some s =>
      if now > s.expiresAt then (.error .notFound, memRemove items id)
      else (.ok s, items)

/-- `session.MemoryStore` as a `Store`.  `Set` ignores the TTL argument
(expiry is enforced lazily in `Get` via `ExpiresAt`); `Set` and `Delete`
never fail. -/
def memoryStore : Store MemItems where
  set := fun st _ id s _ => (none, memSet st id s)
  get := fun st now id => memGet st now id
  del := fun st _ id => (none, memRemove st id)

/-- The Redis backend state for `session.RedisStore`: each key holds the
JSON-encoded session together with the Redis-side expiry instant
(`set time + ttl`).  Key prefixing (`s.prefix + id`) is an injective renaming
of keys and is left out. -/
abbrev RedisItems := List (String × Session × Int)

/-- Lookup in the Redis backend state. -/
def redisFind : RedisItems → String → Option (Session × Int)
  | [], _ => none
  | (k, s, e) :: rest, id => if k = id then some (s, e) else redisFind rest id

/-- `DEL` on the Redis backend state. -/
def redisRemove : RedisItems → String → RedisItems
  | [], _ => []
  | (k, s, e) :: rest, id =>
      if k = id then redisRemove rest id else (k, s, e) :: redisRemove rest id

/-- `RedisStore.Set`: `SET key payload EX ttl`. -/
def redisSet (items : RedisItems) (now : Int) (id : String) (s : Session)
    (ttl : Int) : RedisItems :=
  (id, s, now + ttl) :: redisRemove items id

/-- `RedisStore.Get`: a key whose Redis TTL has fired reads as `redis.Nil`
(mapped to `ErrNotFound`); otherwise, a session whose `ExpiresAt` is strictly
before now is deleted and reported `ErrNotFound`. -/
def redisGet (items : RedisItems) (now : Int) (id : String) :
    Except StoreErr Session × RedisItems :=
  match redisFind items id with
  | none => (.error .notFound, items)
  | some (s, exp) =>
      if now ≥ exp then (.error .notFound, redisRemove items id)
      else if now > s.expiresAt then (.error .notFound, redisRemove items id)
      else (.ok s, items)

/-- `session.RedisStore` as a `Store` (healthy connection: no network
errors; JSON round-tripping is the identity). -/
def redisStore : Store RedisItems where
  set := fun st now id s ttl => (none, redisSet st now id s ttl)
  get := fun st now id => redisGet st now id
  del := fun st _ id => (none, redisRemove st id)

/-- `session.Manager`.  The `Store` is carried with its backend state type;
`IDBytes` only sizes the random ID and is subsumed by passing the generated
ID suffix explicitly. -/
structure Manager (σ : Type) where
  store : Store σ
  ttl : Int
  maxAge : Int
  refreshBefore : Int

/-- `Manager.ensureSessionTimestamps`: reconstructs zero timestamps on
sessions read from the store. -/
def Manager.ensureTimestamps (m : Manager σ) (s : Session) (now : Int) :
    Session :=
  let s1 :=
    if s.createdAt = 0 then
      if m.ttl > 0 ∧ s.expiresAt ≠ 0 then
        let c := s.expiresAt - m.ttl
        { s with createdAt := if c > now then now else c }
      else { s with createdAt := now }
    else s
  if s1.lastRefreshedAt = 0 then { s1 with lastRefreshedAt := s1.createdAt }
  else s1

/-- `Manager.Create`.  The generated ID suffix (`RandomHex`) and the CSRF
token are passed explicitly.  The CSRF-token generation is Modelled from the
spec (§4.1: "generates ID and CSRF token"); the rest follows the source. -/
def Manager.create (m : Manager σ) (st : σ) (now : Int)
    (userID role idTok csrfTok : String) : Except StoreErr Session × σ :=
  let exp := now + m.ttl
  let s : Session :=
    { id := "ses_" ++ idTok, userID := userID, role := role,
      csrfToken := csrfTok, createdAt := now, lastRefreshedAt := now,
      expiresAt := exp }
  match m.store.set st now s.id s m.ttl with
  | (some e, st') => (.error e, st')
  | (none, st') => (.ok s, st')

/-- `Manager.Get`: fetch, repair timestamps, then enforce the hard `MaxAge`
cutoff (delete + `ErrNotFound`) independently of the store's own TTL. -/
def Manager.get (m : Manager σ) (st : σ) (now : Int) (id : String) :
    Except StoreErr Session × σ :=
  match m.store.get st now id with
  | (.error e, st') => (.error e, st')
  | (.ok s0, st') =>
      let s := m.ensureTimestamps s0 now
      if m.maxAge > 0 ∧ now > s.createdAt + m.maxAge then
        (.error .notFound, (m.store.del st' now id).2)
      else (.ok s, st')

/-- `Manager.Delete`: pass-through to the store. -/
def Manager.delete (m : Manager σ) (st : σ) (now : Int) (id : String) :
    Option StoreErr × σ :=
  m.store.del st now id

/-- `Manager.Refresh`: `MaxAge` cutoff first; then a no-op when more than
`RefreshBefore` remains until expiry; otherwise slide `ExpiresAt` to
`now + TTL`, stamp `LastRefreshedAt`, and write back. -/
def Manager.refresh (m : Manager σ) (st : σ) (now : Int) (sess : Session) :
    Except StoreErr (Session × Bool) × σ :=
  if m.ttl ≤ 0 then (.ok (sess, false), st)
  else
    let s := m.ensureTimestamps sess now
    if m.maxAge > 0 ∧ now > s.createdAt + m.maxAge then
      (.error .notFound, (m.store.del st now s.id).2)
    else if m.refreshBefore > 0 ∧ s.expiresAt - now > m.refreshBefore then
      (.ok (s, false), st)
    else
      let s' := { s with expiresAt := now + m.ttl, lastRefreshedAt := now }
      match m.store.set st now s'.id s' m.ttl with
      | (some e, st') => (.error e, st')
      | (none, st') => (.ok (s', true), st')

/-- `auth.Principal`. -/
structure Principal where
  userID : String
  role : String
deriving DecidableEq, Repr

/-- `auth.SessionInfo`. -/
structure SessionInfo where
  id : String
  userID : String
  role : String
  csrfToken : String
  expiresAt : Int
deriving DecidableEq, Repr

/-- `auth.requiresCSRFToken`: every method except GET/HEAD/OPTIONS (the
Go `switch` on the method, written as the equivalent comparison chain). -/
def requiresCSRFToken (method : String) : Bool :=
  !(method = "GET" || method = "HEAD" || method = "OPTIONS")

/-- `Service.AuthenticateSession` from `internal/auth/service.go`, with the
`SessionManager` being the concrete `session.Manager` over a store state σ.
The `s.Sessions == nil` guard is dropped (the manager is passed directly). -/
def authenticateSession (m : Manager σ) (st : σ) (now : Int)
    (sessionID csrfToken method : String) :
    Except AppError (SessionInfo × Bool) × σ :=
  if trimSpace sessionID = "" then
    (.error { kind := .unauthorized, message := "missing session" }, st)
  else
    match m.get st now sessionID with
    | (.error _, st') =>
        (.error { kind := .unauthorized, message := "unauthorized" }, st')
    | (.ok sess, st') =>
        if requiresCSRFToken method ∧
            (csrfToken = "" ∨ csrfToken ≠ sess.csrfToken) then
          (.error { kind := .forbidden, message := "forbidden" }, st')
        else
          match m.refresh st' now sess with
          | (.error .notFound, st'') =>
              (.error { kind := .unauthorized, message := "unauthorized" }, st'')
          | (.error .unavailable, st'') =>
              (.error { kind := .internalErr,
                        message := "failed to refresh session" }, st'')
          | (.ok (s', refreshed), st'') =>
              (.ok ({ id := s'.id, userID := s'.userID, role := s'.role,
                      csrfToken := s'.csrfToken, expiresAt := s'.expiresAt },
                    refreshed), st'')

/-- Modelled from the spec: the API-key `scope` values (§3: `read` | `write`
| `read_write`).  The defining Go file is absent from `src`; only callers
(`internal/auth/service.go`, `internal/apikeys/service.go`) are present. -/
inductive Scope where
  | read
  | write
  | readWrite
deriving DecidableEq, Repr

/-- Modelled from the spec: `Scope.AllowsMethod` (§4.3): "`read` allows
GET/HEAD/OPTIONS only, `write`/`read_write` allow mutating methods,
`read_write` allows everything". -/
def Scope.allowsMethod : Scope → String → Bool
  | .read, m => m = "GET" || m = "HEAD" || m = "OPTIONS"
  | .write, m => !(m = "GET" || m = "HEAD" || m = "OPTIONS")
  | .readWrite, _ => true

/-- Modelled from the spec: `apikeys.Key` (§3), restricted to the fields the
auth service reads (`UserID`, `UserRole`, `Scope`, `RevokedAt`); the defining
Go file is absent from `src`. -/
structure Key where
  id : String
  userID : String
  userRole : String
  scope : Scope
  tokenHash : String
  revokedAt : Option Int
deriving DecidableEq, Repr

/-- Errors of `APIKeyStore.GetByTokenHash`: `apikeys.ErrNotFound` or any
other (backend) error. -/
inductive KeyErr where
  | notFound
  | unavailable
deriving DecidableEq, Repr

/-- `Service.AuthenticateAPIKey` from `internal/auth/service.go`.  The
injected `APIKeyStore` is the `lookup` function; `apikeys.HashToken` (absent
from `src`, a one-way hash per spec §4.3) is the `hash` function.  The
`s.APIKeys == nil` guard is dropped (the store is passed directly). -/
def authenticateAPIKey (lookup : String → Except KeyErr Key)
    (hash : String → String) (token method : String) :
    Except AppError Principal :=
  if trimSpace token = "" then
    .error { kind := .unauthorized, message := "unauthorized" }
  else
    match lookup (hash token) with
    | .error .notFound =>
        .error { kind := .unauthorized, message := "unauthorized" }
    | .error .unavailable =>
        .error { kind := .internalErr, message := "failed to authenticate" }
    | .ok key =>
        if key.revokedAt.isSome then
          .error { kind := .unauthorized, message := "unauthorized" }
        else if !(key.scope.allowsMethod method) then
          .error { kind := .forbidden, message := "forbidden" }
        else .ok { userID := key.userID, role := key.userRole }

/-- The Redis keyspace backing `ratelimit.Limiter`: each key holds its
counter and the instant (in milliseconds) at which Redis expires it.
Every counter is created by the Lua script, which attaches the window TTL
in the same atomic step, so every entry carries an expiry. -/
abbrev RLItems := List (String × Int × Int)

/-- Counter lookup in the limiter's keyspace. -/
def rlFind : RLItems → String → Option (Int × Int)
  | [], _ => none
  | (k, c, e) :: rest, key => if k = key then some (c, e) else rlFind rest key

/-- Key removal in the limiter's keyspace. -/
def rlRemove : RLItems → String → RLItems
  | [], _ => []
  | (k, c, e) :: rest, key =>
      if k = key then rlRemove rest key else (k, c, e) :: rlRemove rest key

/-- The limiter's Lua script (`allowScript`), run atomically by Redis:
`INCR` the key (a key whose TTL has fired counts as absent), `PEXPIRE` it to
the window iff this made it 1, then return `{0, PTTL}` when the count exceeds
the limit and `{1, PTTL}` otherwise.  `now` is in milliseconds. -/
def runAllowScript (limit window : Int) (items : RLItems) (now : Int)
    (key : String) : (Int × Int) × RLItems :=
  let live := match rlFind items key with
    | some (_, e) => if now ≥ e then rlRemove items key else items
    | none => items
  match rlFind live key with
  | none =>
      let exp := now + window
      ((if (1 : Int) > limit then 0 else 1, exp - now),
       (key, 1, exp) :: live)
  | some (c, e) =>
      ((if c + 1 > limit then 0 else 1, e - now),
       (key, c + 1, e) :: rlRemove live key)

/-- `ratelimit.Limiter`: `hasClient` models `Client != nil` (nil fails
open); key prefixing (`l.Prefix + key`) is an injective renaming and is left
out.  `window` is in milliseconds. -/
structure Limiter where
  hasClient : Bool
  limit : Int
  window : Int
deriving DecidableEq, Repr

/-- `Limiter.Allow`: fail open without a client; default the limit to 5 and
the window to one minute; run the script and map its `{allowed, pttl}` reply
to `(allowed == 1, ttl)`. -/
def Limiter.allow (l : Limiter) (items : RLItems) (now : Int) (key : String) :
    (Bool × Int) × RLItems :=
  if !l.hasClient then ((true, 0), items)
  else
    let limit := if l.limit ≤ 0 then 5 else l.limit
    let window := if l.window ≤ 0 then 60000 else l.window
    let ((allowed, ttl), items') := runAllowScript limit window items now key
    ((allowed = 1, ttl), items')

/-- Folds `Allow` over one key at the given call instants, collecting each
call's `(allowed, retryAfter)` reply. -/
def Limiter.allowRun (l : Limiter) (items : RLItems) (key : String) :
    List Int → List (Bool × Int) × RLItems
  | [] => ([], items)
  | now :: rest =>
      let (reply, items') := l.allow items now key
      let (replies, items'') := l.allowRun items' key rest
      (reply :: replies, items'')

/-- `users.User` from `internal/users/model.go`, restricted to the fields the
auth service reads; the role is kept as its string value. -/
structure User where
  id : String
  email : String
  passwordHash : String
  role : String
deriving DecidableEq, Repr

/-- `auth.LoginInput`. -/
structure LoginInput where
  email : String
  password : String
  clientIP : String
deriving DecidableEq, Repr

/-- `auth.LoginResult`. -/
structure LoginResult where
  userID : String
  userEmail : String
  userRole : String
  session : SessionInfo
deriving DecidableEq, Repr

/-- The collaborators `auth.Service` holds, with each injected interface as
a function: `Users.GetByEmail` (errors are opaque, `Option` result models
found / any error), `LoginLimiter.Allow` (as `none` when no limiter is
configured, and per key a reply or an error), and `PasswordVerifier`
(`true` = hash matches).  The session manager is the concrete `Manager`. -/
structure AuthService (σ : Type) where
  getUserByEmail : String → Option User
  sessions : Manager σ
  limiter : Option (String → Except Unit (Bool × Int))
  verifyPassword : String → String → Bool

/-- `Service.Login` from `internal/auth/service.go`.  The generated session
ID suffix and CSRF token are passed explicitly (randomness); the
`s.Users == nil || s.Sessions == nil` guard is dropped (both are present by
construction). -/
def AuthService.login (s : AuthService σ) (st : σ) (now : Int)
    (idTok csrfTok : String) (input : LoginInput) :
    Except AppError LoginResult × σ :=
  let email := trimSpace (toLowerStr input.email)
  let password := trimSpace input.password
  if email = "" ∨ password = "" then
    (.error { kind := .invalidInput,
              message := "email and password are required" }, st)
  else if !(containsChar email '@') then
    (.error { kind := .invalidInput, message := "invalid email" }, st)
  else
    let limited : Option AppError :=
      match s.limiter with
      | none => none
      | some allow =>
          let ipGate :=
            if trimSpace input.clientIP ≠ "" then
              match allow ("login:ip:" ++ input.clientIP) with
              | .error _ =>
                  some { kind := .internalErr, message := "rate limit error" }
              | .ok (allowed, retryAfter) =>
                  if !allowed then
                    some { kind := .rateLimited,
                           message := "too many requests",
                           retryAfter := retryAfter }
                  else none
            else none
          match ipGate with
          | some e => some e
          | none =>
              match allow ("login:email:" ++ email) with
              | .error _ =>
                  some { kind := .internalErr, message := "rate limit error" }
              | .ok (allowed, retryAfter) =>
                  if !allowed then
                    some { kind := .rateLimited,
                           message := "too many requests",
                           retryAfter := retryAfter }
                  else none
    match limited with
    | some e => (.error e, st)
    | none =>
        match s.getUserByEmail email with
        | none =>
            (.error { kind := .unauthorized,
                      message := "invalid credentials" }, st)
        | some u =>
            if !(s.verifyPassword u.passwordHash password) then
              (.error { kind := .unauthorized,
                        message := "invalid credentials" }, st)
            else
              match s.sessions.create st now u.id u.role idTok csrfTok with
              | (.error _, st') =>
                  (.error { kind := .internalErr,
                            message := "failed to create session" }, st')
              | (.ok sess, st') =>
                  (.ok { userID := u.id, userEmail := u.email,
                         userRole := u.role,
                         session := { id := sess.id, userID := sess.userID,
                                      role := sess.role,
                                      csrfToken := sess.csrfToken,
                                      expiresAt := sess.expiresAt } }, st')

/-- The request fields the auth middleware reads: the method, the
`X-API-Key`, `Authorization` and `X-CSRF-Token` headers (absent = `""`),
and the cookie jar. -/
structure Request where
  method : String
  xApiKey : String
  authorization : String
  xCsrfToken : String
  cookies : List (String × String)
deriving DecidableEq, Repr

/-- `r.Cookie(name)`: the named cookie's value, `""` when absent. -/
def cookieValue : List (String × String) → String → String
  | [], _ => ""
  | (k, v) :: rest, name => if k = name then v else cookieValue rest name

/-- `httpapi.apiKeyFromRequest`: a trimmed non-empty `X-API-Key` header, or
the token of a two-field `Bearer`-style `Authorization` value
(`strings.Fields` = split on whitespace runs; `EqualFold` = caseless
compare). -/
def apiKeyFromRequest (r : Request) : String :=
  if trimSpace r.xApiKey ≠ "" then trimSpace r.xApiKey
  else
    let auth := trimSpace r.authorization
    if auth = "" then ""
    else
      let parts := fields auth
      match parts with
      | [scheme, tok] => if toLowerStr scheme = "bearer" then trimSpace tok else ""
      | _ => ""

/-- The `httpapi.Authenticator` interface the middleware delegates to. -/
structure Authenticator where
  authAPIKey : (token : String) → (method : String) → Except AppError Principal
  authSession : (sessionID : String) → (csrfToken : String) →
    (method : String) → Except AppError (SessionInfo × Bool)

/-- `httpapi.AuthOptions` (the `CookieConfig` reduced to the cookie name,
the only field the middleware reads). -/
structure AuthOptions where
  allowAPIKey : Bool
  allowSession : Bool
  cookieName : String
deriving DecidableEq, Repr

/-- What the middleware does with a request: write a plain `http.Error`,
write an app error via `writeAppError` (status per the error kind), or call
the downstream handler with the injected identity (and whether the session
cookie was rewritten after a refresh). -/
inductive Outcome where
  | plainError (status : Int) (msg : String)
  | appError (e : AppError)
  | handler (userID role : String) (cookieRewritten : Bool)
deriving DecidableEq, Repr

/-- `httpapi.AuthMiddleware` from `internal/httpapi/router.go`. -/
def authMiddleware (a : Option Authenticator) (opts : AuthOptions)
    (r : Request) : Outcome :=
  match a with
  | none => .plainError 500 "auth not configured"
  | some auth =>
      let tok := apiKeyFromRequest r
      if opts.allowAPIKey ∧ tok ≠ "" then
        match auth.authAPIKey tok r.method with
        | .error e => .appError e
        | .ok p => .handler p.userID p.role false
      else if !opts.allowSession then .plainError 401 "unauthorized"
      else
        let name :=
          if opts.cookieName = "" then "sniply_session" else opts.cookieName
        let sessionID := cookieValue r.cookies name
        match auth.authSession sessionID r.xCsrfToken r.method with
        | .error e => .appError e
        | .ok (sess, refreshed) => .handler sess.userID sess.role refreshed

/-- One observation step against the session manager: `Create`, `Get`,
`Delete`, or `touch` = `Get` followed by `Refresh` of the fetched session
(the composition `Service.AuthenticateSession` performs). -/
inductive TraceOp where
  | create (now : Int) (userID role idTok csrfTok : String)
  | get (now : Int) (id : String)
  | touch (now : Int) (id : String)
  | del (now : Int) (id : String)
deriving DecidableEq, Repr

/-- Run one trace step over the memory store, returning the new store state
and the sessions this step handed to the caller. -/
def runOp (m : Manager MemItems) (st : MemItems) :
    TraceOp → MemItems × List Session
  | .create now u role i c =>
      match m.create st now u role i c with
      | (.ok s, st') => (st', [s])
      | (.error _, st') => (st', [])
  | .get now id =>
      match m.get st now id with
      | (.ok s, st') => (st', [s])
      | (.error _, st') => (st', [])
  | .touch now id =>
      match m.get st now id with
      | (.ok s, st') =>
          match m.refresh st' now s with
          | (.ok (s', _), st'') => (st'', [s, s'])
          | (.error _, st'') => (st'', [s])
      | (.error _, st') => (st', [])
  | .del now id => ((m.delete st now id).2, [])

/-- Run a list of trace steps, collecting every session observed. -/
def runTrace (m : Manager MemItems) (st : MemItems) :
    List TraceOp → MemItems × List Session
  | [] => (st, [])
  | op :: rest =>
      let (st', obs) := runOp m st op
      let (st'', obs') := runTrace m st' rest
      (st'', obs ++ obs')

/-- A step is well formed when its clock reading is positive (Go's
`time.Now()` is never the zero time). -/
def opWF : TraceOp → Bool
  | .create now _ _ _ _ => decide (0 < now)
  | .get now _ => decide (0 < now)
  | .touch now _ => decide (0 < now)
  | .del now _ => decide (0 < now)

/-- The rate limiter lets every key through (no blocked dimension, or no
limiter configured). -/
def limiterOpen : Option (String → Except Unit (Bool × Int)) → Prop
  | none => True
  | some allow => ∀ k, ∃ d, allow k = .ok (true, d)

/-- A session whose creation timestamp is a real instant and whose expiry
stays within `CreatedAt + MaxAge + TTL`. -/
def GoodS (maxAge ttl : Int) (s : Session) : Prop :=
  0 < s.createdAt ∧ s.expiresAt ≤ s.createdAt + maxAge + ttl

/-- Every session held by the memory store is `GoodS`. -/
def InvSt (maxAge ttl : Int) (st : MemItems) : Prop :=
  ∀ p ∈ st, GoodS maxAge ttl p.2

/-- The session `Manager.Refresh` writes back: expiry slid to `now + TTL`,
`LastRefreshedAt` stamped, everything else untouched. -/
def slide (s : Session) (now ttl : Int) : Session :=
  { s with expiresAt := now + ttl, lastRefreshedAt := now }

/-- A concrete session used to instantiate theorems on sample inputs. -/
def sampleSession (created expires : Int) : Session :=
  { id := "ses_x", userID := "usr_1", role := "member", csrfToken := "tok",
    createdAt := created, lastRefreshedAt := created, expiresAt := expires }

theorem memFind_memRemove (items : MemItems) (id : String) :
    memFind (memRemove items id) id = none := by
  induction items with
  | nil => rfl
  | cons p rest ih =>
      obtain ⟨k, s⟩ := p
      by_cases h : k = id <;> simp [memRemove, memFind, h, ih]

theorem redisFind_redisRemove (items : RedisItems) (id : String) :
    redisFind (redisRemove items id) id = none := by
  induction items with
  | nil => rfl
  | cons p rest ih =>
      obtain ⟨k, s, e⟩ := p
      by_cases h : k = id <;> simp [redisRemove, redisFind, h, ih]

/-- C10: both session store implementations delete an entry whose
`ExpiresAt` is strictly in the past on `Get` and answer `ErrNotFound`
(for Redis even when its own key TTL has not yet fired), so any session a
store `Get` returns has `ExpiresAt` no earlier than the moment of the
check. -/
theorem c10_store_get_expired (mItems : MemItems) (rItems : RedisItems)
    (now : Int) (id : String) (s sr : Session) (rexp : Int) :
    (memFind mItems id = some s → s.expiresAt < now →
       (memGet mItems now id).1 = .error .notFound ∧
       memFind (memGet mItems now id).2 id = none) ∧
    (∀ s', (memGet mItems now id).1 = .ok s' → now ≤ s'.expiresAt) ∧
    (redisFind rItems id = some (sr, rexp) → now < rexp → sr.expiresAt < now →
       (redisGet rItems now id).1 = .error .notFound ∧
       redisFind (redisGet rItems now id).2 id = none) ∧
    (∀ s', (redisGet rItems now id).1 = .ok s' → now ≤ s'.expiresAt) := by
  refine ⟨?_, ?_, ?_, ?_⟩
  · intro hf hexp
    simp only [memGet, hf]
    rw [if_pos (by omega : now > s.expiresAt)]
    exact ⟨rfl, memFind_memRemove _ _⟩
  · intro s' h
    unfold memGet at h
    cases hf : memFind mItems id with
    | none => rw [hf] at h; exact absurd h (by simp)
    | some s0 =>
        rw [hf] at h
        dsimp only at h
        split at h
        · exact absurd h (by simp)
        · cases h; omega
  · intro hf hlive hexp
    simp only [redisGet, hf]
    rw [if_neg (by omega : ¬ now ≥ rexp),
      if_pos (by omega : now > sr.expiresAt)]
    exact ⟨rfl, redisFind_redisRemove _ _⟩
  · intro s' h
    unfold redisGet at h
    cases hf : redisFind rItems id with
    | none => rw [hf] at h; exact absurd h (by simp)
    | some p =>
        obtain ⟨s0, e0⟩ := p
        rw [hf] at h
        dsimp only at h
        split at h
        · exact absurd h (by simp)
        · split at h
          · exact absurd h (by simp)
          · cases h; omega

theorem c10_store_get_expired_witness :
    ((memGet [("ses_x", sampleSession 1 50)] 100 "ses_x").1 =
        .error .notFound ∧
      memFind (memGet [("ses_x", sampleSession 1 50)] 100 "ses_x").2 "ses_x" =
        none) ∧
    ((redisGet [("ses_x", sampleSession 1 50, 200)] 100 "ses_x").1 =
        .error .notFound ∧
      redisFind (redisGet [("ses_x", sampleSession 1 50, 200)] 100 "ses_x").2
        "ses_x" = none) := by
  have h := c10_store_get_expired [("ses_x", sampleSession 1 50)]
    [("ses_x", sampleSession 1 50, 200)] 100 "ses_x"
    (sampleSession 1 50) (sampleSession 1 50) 200
  exact ⟨h.1 (by decide) (by decide), h.2.2.1 (by decide) (by decide) (by decide)⟩

theorem ensureTimestamps_eq_self (m : Manager σ) (s : Session) (now : Int)
    (hc : s.createdAt ≠ 0) (hl : s.lastRefreshedAt ≠ 0) :
    m.ensureTimestamps s now = s := by
  simp [Manager.ensureTimestamps, hc, hl]

theorem ensureTimestamps_fields (m : Manager σ) (s : Session) (now : Int)
    (hc : s.createdAt ≠ 0) :
    (m.ensureTimestamps s now).createdAt = s.createdAt ∧
    (m.ensureTimestamps s now).expiresAt = s.expiresAt ∧
    (m.ensureTimestamps s now).csrfToken = s.csrfToken ∧
    (m.ensureTimestamps s now).id = s.id ∧
    (m.ensureTimestamps s now).userID = s.userID ∧
    (m.ensureTimestamps s now).role = s.role := by
  simp only [Manager.ensureTimestamps, hc, if_false]
  split <;> simp

/-- C6: `Manager.Get` on a stored session whose age exceeds `MaxAge` answers
`ErrNotFound` and removes the entry from the store, whether or not the
store's own expiry (`ExpiresAt`) has fired; a second `Get` still answers
`ErrNotFound` and a `Delete` of the same id reports no error. -/
theorem c6_get_past_maxage (m : Manager MemItems) (st : MemItems)
    (now now2 : Int) (id : String) (s : Session)
    (hstore : m.store = memoryStore)
    (hfind : memFind st id = some s) (hc : s.createdAt ≠ 0)
    (hma : 0 < m.maxAge) (hpast : s.createdAt + m.maxAge < now) :
    (m.get st now id).1 = .error .notFound ∧
    memFind (m.get st now id).2 id = none ∧
    (m.get (m.get st now id).2 now2 id).1 = .error .notFound ∧
    (m.delete (m.get st now id).2 now2 id).1 = none := by
  have hcre := (ensureTimestamps_fields m s now hc).1
  have key : m.get st now id = (.error .notFound, memRemove st id) := by
    unfold Manager.get
    rw [hstore]
    simp only [memoryStore, memGet, hfind]
    by_cases he : now > s.expiresAt
    · rw [if_pos he]
    · rw [if_neg he]
      dsimp only
      rw [if_pos ⟨hma, by omega⟩]
  refine ⟨by rw [key], by rw [key]; exact memFind_memRemove st id, ?_, ?_⟩
  · rw [key]
    unfold Manager.get
    rw [hstore]
    simp only [memoryStore, memGet, memFind_memRemove st id]
  · rw [key]
    simp [Manager.delete, hstore, memoryStore]

theorem c6_get_past_maxage_witness :
    ((⟨memoryStore, 3600, 28800, 600⟩ : Manager MemItems).get
        [("ses_x", sampleSession 1 3601)] 30000 "ses_x").1 =
      .error .notFound ∧
    memFind ((⟨memoryStore, 3600, 28800, 600⟩ : Manager MemItems).get
        [("ses_x", sampleSession 1 3601)] 30000 "ses_x").2 "ses_x" = none ∧
    ((⟨memoryStore, 3600, 28800, 600⟩ : Manager MemItems).get
        ((⟨memoryStore, 3600, 28800, 600⟩ : Manager MemItems).get
          [("ses_x", sampleSession 1 3601)] 30000 "ses_x").2
        30001 "ses_x").1 = .error .notFound ∧
    ((⟨memoryStore, 3600, 28800, 600⟩ : Manager MemItems).delete
        ((⟨memoryStore, 3600, 28800, 600⟩ : Manager MemItems).get
          [("ses_x", sampleSession 1 3601)] 30000 "ses_x").2
        30001 "ses_x").1 = none :=
  c6_get_past_maxage ⟨memoryStore, 3600, 28800, 600⟩
    [("ses_x", sampleSession 1 3601)] 30000 30001 "ses_x"
    (sampleSession 1 3601) rfl (by decide) (by decide) (by decide) (by decide)

theorem memFind_memSet (items : MemItems) (id : String) (s : Session) :
    memFind (memSet items id s) id = some s := by
  simp [memSet, memFind]

/-- C7: `Manager.Create` returns a session whose ID is built from the fresh
random suffix, whose CSRF token is the freshly generated one, with
`CreatedAt = LastRefreshedAt = now` and `ExpiresAt = now + TTL`, and
persists it in the store under its ID; over any store, a `Create` error is
exactly the store's write error (the memory store never produces one). -/
theorem c7_create (m : Manager MemItems) (st : MemItems) (now : Int)
    (u role idTok csrfTok : String) (hstore : m.store = memoryStore) :
    m.create st now u role idTok csrfTok =
      (.ok { id := "ses_" ++ idTok, userID := u, role := role,
             csrfToken := csrfTok, createdAt := now, lastRefreshedAt := now,
             expiresAt := now + m.ttl },
       memSet st ("ses_" ++ idTok)
         { id := "ses_" ++ idTok, userID := u, role := role,
           csrfToken := csrfTok, createdAt := now, lastRefreshedAt := now,
           expiresAt := now + m.ttl }) ∧
    memFind (m.create st now u role idTok csrfTok).2 ("ses_" ++ idTok) =
      some { id := "ses_" ++ idTok, userID := u, role := role,
             csrfToken := csrfTok, createdAt := now, lastRefreshedAt := now,
             expiresAt := now + m.ttl } ∧
    (∀ (σ' : Type) (m' : Manager σ') (st' : σ') (now' : Int)
        (u' r' i' c' : String) (e : StoreErr) (st2 : σ'),
      m'.create st' now' u' r' i' c' = (.error e, st2) →
      (m'.store.set st' now' ("ses_" ++ i')
        { id := "ses_" ++ i', userID := u', role := r', csrfToken := c',
          createdAt := now', lastRefreshedAt := now',
          expiresAt := now' + m'.ttl } m'.ttl).1 = some e) := by
  have key : m.create st now u role idTok csrfTok =
      (.ok { id := "ses_" ++ idTok, userID := u, role := role,
             csrfToken := csrfTok, createdAt := now, lastRefreshedAt := now,
             expiresAt := now + m.ttl },
       memSet st ("ses_" ++ idTok)
         { id := "ses_" ++ idTok, userID := u, role := role,
           csrfToken := csrfTok, createdAt := now, lastRefreshedAt := now,
           expiresAt := now + m.ttl }) := by
    unfold Manager.create
    rw [hstore]
    simp only [memoryStore]
  refine ⟨key, by rw [key]; exact memFind_memSet _ _ _, ?_⟩
  intro σ' m' st' now' u' r' i' c' e st2 h
  unfold Manager.create at h
  rcases hset : m'.store.set st' now' ("ses_" ++ i')
      { id := "ses_" ++ i', userID := u', role := r', csrfToken := c',
        createdAt := now', lastRefreshedAt := now',
        expiresAt := now' + m'.ttl } m'.ttl with ⟨oe, stx⟩
  dsimp only at h
  rw [hset] at h
  cases oe with
  | none => exact absurd h (by simp)
  | some e0 =>
      dsimp only at h
      simp only [Prod.mk.injEq, Except.error.injEq] at h
      simp [h.1]

/-- C5: within the `MaxAge` cutoff, `Refresh` is a pure no-op (same session,
`refreshed = false`, untouched store) when more than `RefreshBefore` remains
until expiry; otherwise it slides `ExpiresAt` to `now + TTL`, stamps
`LastRefreshedAt = now`, writes the session back, and reports
`refreshed = true`; the CSRF token is unchanged in both cases. -/
theorem c5_refresh (m : Manager MemItems) (st : MemItems) (now : Int)
    (s : Session) (hstore : m.store = memoryStore)
    (httl : 0 < m.ttl) (hrb : 0 < m.refreshBefore)
    (hc : s.createdAt ≠ 0) (hl : s.lastRefreshedAt ≠ 0)
    (hcut : ¬(m.maxAge > 0 ∧ now > s.createdAt + m.maxAge)) :
    (m.refreshBefore < s.expiresAt - now →
       m.refresh st now s = (.ok (s, false), st)) ∧
    (s.expiresAt - now ≤ m.refreshBefore →
       m.refresh st now s =
         (.ok (slide s now m.ttl, true), memSet st s.id (slide s now m.ttl)) ∧
       (slide s now m.ttl).csrfToken = s.csrfToken) := by
  have hens := ensureTimestamps_eq_self m s now hc hl
  constructor
  · intro hfar
    unfold Manager.refresh
    rw [if_neg (by omega : ¬ m.ttl ≤ 0), hens, if_neg hcut,
      if_pos ⟨hrb, hfar⟩]
  · intro hnear
    refine ⟨?_, rfl⟩
    unfold Manager.refresh
    rw [if_neg (by omega : ¬ m.ttl ≤ 0), hens, if_neg hcut,
      if_neg (by omega : ¬(m.refreshBefore > 0 ∧
        s.expiresAt - now > m.refreshBefore))]
    rw [hstore]
    simp only [memoryStore, slide]

theorem c7_create_witness :
    (⟨memoryStore, 3600, 28800, 600⟩ : Manager MemItems).create [] 1 "usr_1"
        "member" "ab" "tok" =
      (.ok { id := "ses_ab", userID := "usr_1", role := "member",
             csrfToken := "tok", createdAt := 1, lastRefreshedAt := 1,
             expiresAt := 3601 },
       memSet [] "ses_ab"
         { id := "ses_ab", userID := "usr_1", role := "member",
           csrfToken := "tok", createdAt := 1, lastRefreshedAt := 1,
           expiresAt := 3601 }) :=
  (c7_create ⟨memoryStore, 3600, 28800, 600⟩ [] 1 "usr_1" "member" "ab" "tok"
    rfl).1

theorem c5_refresh_witness :
    (⟨memoryStore, 3600, 28800, 600⟩ : Manager MemItems).refresh
        [("ses_x", sampleSession 1 3601)] 1000 (sampleSession 1 3601) =
      (.ok (sampleSession 1 3601, false), [("ses_x", sampleSession 1 3601)]) ∧
    (⟨memoryStore, 3600, 28800, 600⟩ : Manager MemItems).refresh
        [("ses_x", sampleSession 1 3601)] 3301 (sampleSession 1 3601) =
      (.ok (slide (sampleSession 1 3601) 3301 3600, true),
       memSet [("ses_x", sampleSession 1 3601)] "ses_x"
         (slide (sampleSession 1 3601) 3301 3600)) := by
  constructor
  · exact (c5_refresh ⟨memoryStore, 3600, 28800, 600⟩
      [("ses_x", sampleSession 1 3601)] 1000 (sampleSession 1 3601) rfl
      (by decide) (by decide) (by decide) (by decide) (by decide)).1
      (by decide)
  · exact ((c5_refresh ⟨memoryStore, 3600, 28800, 600⟩
      [("ses_x", sampleSession 1 3601)] 3301 (sampleSession 1 3601) rfl
      (by decide) (by decide) (by decide) (by decide) (by decide)).2
      (by decide)).1

/-- C2: on a valid session, a mutating request whose echoed CSRF token is
empty or differs from the session's stored token is answered `Forbidden`;
for GET/HEAD/OPTIONS the CSRF comparison is skipped — the result does not
depend on the echoed token at all and authentication succeeds with no
token. -/
theorem c2_session_csrf (m : Manager MemItems) (st : MemItems) (now : Int)
    (id csrf method : String) (s : Session)
    (hstore : m.store = memoryStore)
    (hid : trimSpace id ≠ "")
    (hfind : memFind st id = some s)
    (hexp : ¬ now > s.expiresAt)
    (hc : s.createdAt ≠ 0) (hl : s.lastRefreshedAt ≠ 0)
    (hcut : ¬(m.maxAge > 0 ∧ now > s.createdAt + m.maxAge)) :
    (requiresCSRFToken method = true → csrf = "" ∨ csrf ≠ s.csrfToken →
       (authenticateSession m st now id csrf method).1 =
         .error { kind := .forbidden, message := "forbidden" }) ∧
    (requiresCSRFToken method = false →
       (authenticateSession m st now id csrf method).1 =
         (authenticateSession m st now id "" method).1 ∧
       ∃ info refreshed,
         (authenticateSession m st now id "" method).1 =
           .ok (info, refreshed)) := by
  have hget : m.get st now id = (.ok s, st) := by
    unfold Manager.get
    rw [hstore]
    simp only [memoryStore, memGet, hfind]
    rw [if_neg hexp]
    dsimp only
    rw [ensureTimestamps_eq_self m s now hc hl, if_neg hcut]
  have hrefresh : ∃ s' b st2, m.refresh st now s = (.ok (s', b), st2) := by
    unfold Manager.refresh
    by_cases h0 : m.ttl ≤ 0
    · rw [if_pos h0]; exact ⟨s, false, st, rfl⟩
    · rw [if_neg h0]
      dsimp only
      rw [ensureTimestamps_eq_self m s now hc hl, if_neg hcut]
      by_cases hfar : m.refreshBefore > 0 ∧ s.expiresAt - now > m.refreshBefore
      · rw [if_pos hfar]; exact ⟨s, false, st, rfl⟩
      · rw [if_neg hfar]
        rw [hstore]
        simp only [memoryStore]
        exact ⟨_, _, _, rfl⟩
  constructor
  · intro hreq hbad
    unfold authenticateSession
    rw [if_neg hid, hget]
    dsimp only
    rw [if_pos ⟨hreq, hbad⟩]
  · intro hreq
    obtain ⟨s', b, st2, hr⟩ := hrefresh
    unfold authenticateSession
    rw [if_neg hid, if_neg hid, hget]
    dsimp only
    rw [if_neg (by simp [hreq] :
        ¬(requiresCSRFToken method = true ∧ (csrf = "" ∨ csrf ≠ s.csrfToken))),
      if_neg (by simp [hreq] :
        ¬(requiresCSRFToken method = true ∧
          (("" : String) = "" ∨ ("" : String) ≠ s.csrfToken))),
      hr]
    exact ⟨rfl, ⟨_, b, rfl⟩⟩

theorem c2_session_csrf_witness :
    (authenticateSession (⟨memoryStore, 3600, 28800, 600⟩ : Manager MemItems)
        [("ses_x", sampleSession 1 3601)] 1000 "ses_x" "bad" "POST").1 =
      .error { kind := .forbidden, message := "forbidden" } ∧
    ∃ info refreshed,
      (authenticateSession (⟨memoryStore, 3600, 28800, 600⟩ : Manager MemItems)
          [("ses_x", sampleSession 1 3601)] 1000 "ses_x" "" "GET").1 =
        .ok (info, refreshed) := by
  have h := c2_session_csrf ⟨memoryStore, 3600, 28800, 600⟩
    [("ses_x", sampleSession 1 3601)] 1000 "ses_x" "bad" "POST"
    (sampleSession 1 3601) rfl (by decide) (by decide) (by decide) (by decide)
    (by decide) (by decide)
  have h2 := c2_session_csrf ⟨memoryStore, 3600, 28800, 600⟩
    [("ses_x", sampleSession 1 3601)] 1000 "ses_x" "" "GET"
    (sampleSession 1 3601) rfl (by decide) (by decide) (by decide) (by decide)
    (by decide) (by decide)
  exact ⟨h.1 (by decide) (Or.inr (by decide)), (h2.2 (by decide)).2⟩

/-- C3: with a non-blank token, an unknown token hash and a revoked key
produce the very same `Unauthorized` error value (indistinguishable to the
caller); a live key whose scope refuses the method gets `Forbidden`; scope
`read` admits exactly GET/HEAD/OPTIONS while `read_write` admits every
method. -/
theorem c3_apikey_auth (lookup : String → Except KeyErr Key)
    (hash : String → String) (t1 t2 t3 method mm : String) (k2 k3 : Key)
    (r : Int)
    (h1t : trimSpace t1 ≠ "") (h2t : trimSpace t2 ≠ "")
    (h3t : trimSpace t3 ≠ "")
    (h1 : lookup (hash t1) = .error .notFound)
    (h2 : lookup (hash t2) = .ok k2) (h2r : k2.revokedAt = some r)
    (h3 : lookup (hash t3) = .ok k3) (h3r : k3.revokedAt = none) :
    (authenticateAPIKey lookup hash t1 method =
       .error { kind := .unauthorized, message := "unauthorized" } ∧
     authenticateAPIKey lookup hash t2 method =
       authenticateAPIKey lookup hash t1 method) ∧
    (k3.scope.allowsMethod method = false →
       authenticateAPIKey lookup hash t3 method =
         .error { kind := .forbidden, message := "forbidden" }) ∧
    (Scope.read.allowsMethod mm = true ↔
       mm = "GET" ∨ mm = "HEAD" ∨ mm = "OPTIONS") ∧
    Scope.readWrite.allowsMethod mm = true := by
  have e1 : authenticateAPIKey lookup hash t1 method =
      .error { kind := .unauthorized, message := "unauthorized" } := by
    unfold authenticateAPIKey
    rw [if_neg h1t, h1]
  refine ⟨⟨e1, ?_⟩, ?_, ?_, rfl⟩
  · rw [e1]
    unfold authenticateAPIKey
    rw [if_neg h2t, h2]
    dsimp only
    rw [if_pos (by simp [h2r])]
  · intro hscope
    unfold authenticateAPIKey
    rw [if_neg h3t, h3]
    dsimp only
    rw [if_neg (by simp [h3r]), if_pos (by simp [hscope])]
  · simp [Scope.allowsMethod, or_assoc]

theorem c3_apikey_auth_witness :
    (authenticateAPIKey
        (fun h => if h = "h-t1" then .error .notFound
          else if h = "h-t2" then
            .ok { id := "k2", userID := "u2", userRole := "member",
                  scope := .readWrite, tokenHash := "h-t2",
                  revokedAt := some 5 }
          else
            .ok { id := "k3", userID := "u3", userRole := "member",
                  scope := .read, tokenHash := "h-t3", revokedAt := none })
        (fun t => "h-" ++ t) "t1" "POST" =
      .error { kind := .unauthorized, message := "unauthorized" } ∧
     authenticateAPIKey
        (fun h => if h = "h-t1" then .error .notFound
          else if h = "h-t2" then
            .ok { id := "k2", userID := "u2", userRole := "member",
                  scope := .readWrite, tokenHash := "h-t2",
                  revokedAt := some 5 }
          else
            .ok { id := "k3", userID := "u3", userRole := "member",
                  scope := .read, tokenHash := "h-t3", revokedAt := none })
        (fun t => "h-" ++ t) "t2" "POST" =
      authenticateAPIKey
        (fun h => if h = "h-t1" then .error .notFound
          else if h = "h-t2" then
            .ok { id := "k2", userID := "u2", userRole := "member",
                  scope := .readWrite, tokenHash := "h-t2",
                  revokedAt := some 5 }
          else
            .ok { id := "k3", userID := "u3", userRole := "member",
                  scope := .read, tokenHash := "h-t3", revokedAt := none })
        (fun t => "h-" ++ t) "t1" "POST") ∧
    (authenticateAPIKey
        (fun h => if h = "h-t1" then .error .notFound
          else if h = "h-t2" then
            .ok { id := "k2", userID := "u2", userRole := "member",
                  scope := .readWrite, tokenHash := "h-t2",
                  revokedAt := some 5 }
          else
            .ok { id := "k3", userID := "u3", userRole := "member",
                  scope := .read, tokenHash := "h-t3", revokedAt := none })
        (fun t => "h-" ++ t) "t3" "POST" =
      .error { kind := .forbidden, message := "forbidden" }) ∧
    (Scope.read.allowsMethod "POST" = true ↔
      "POST" = "GET" ∨ "POST" = "HEAD" ∨ "POST" = "OPTIONS") ∧
    Scope.readWrite.allowsMethod "POST" = true := by
  have h := c3_apikey_auth
    (fun h => if h = "h-t1" then .error .notFound
      else if h = "h-t2" then
        .ok { id := "k2", userID := "u2", userRole := "member",
              scope := .readWrite, tokenHash := "h-t2", revokedAt := some 5 }
      else
        .ok { id := "k3", userID := "u3", userRole := "member",
              scope := .read, tokenHash := "h-t3", revokedAt := none })
    (fun t => "h-" ++ t) "t1" "t2" "t3" "POST" "POST"
    { id := "k2", userID := "u2", userRole := "member", scope := .readWrite,
      tokenHash := "h-t2", revokedAt := some 5 }
    { id := "k3", userID := "u3", userRole := "member", scope := .read,
      tokenHash := "h-t3", revokedAt := none }
    5 (by decide) (by decide) (by decide) rfl rfl rfl rfl rfl
  exact ⟨⟨h.1.1, h.1.2⟩, h.2.1 (by decide), h.2.2.1, h.2.2.2⟩

theorem rlFind_rlRemove (items : RLItems) (key : String) :
    rlFind (rlRemove items key) key = none := by
  induction items with
  | nil => rfl
  | cons p rest ih =>
      obtain ⟨k, c, e⟩ := p
      by_cases h : k = key <;> simp [rlRemove, rlFind, h, ih]

/-- C4: one `Allow` call increments the key's counter and attaches the
window TTL in the same step exactly when the counter is fresh in the window;
it reports `allowed = false` precisely when the new count exceeds the limit,
with `retryAfter` the counter's remaining (positive) TTL.  Concretely, with
limit 5 and a 60s window, five calls pass, the sixth is blocked with a
positive `retryAfter`, and a call after the window has elapsed passes
again. -/
theorem c4_ratelimit (l : Limiter) (items : RLItems) (now : Int)
    (key : String) (hc : l.hasClient = true) (hl : 0 < l.limit)
    (hw : 0 < l.window) :
    (∃ c exp,
       rlFind (l.allow items now key).2 key = some (c, exp) ∧
       ((l.allow items now key).1.1 = false ↔ l.limit < c) ∧
       (l.allow items now key).1.2 = exp - now ∧ now < exp ∧
       (match rlFind items key with
        | none => c = 1 ∧ exp = now + l.window
        | some (c0, e0) =>
            if now ≥ e0 then c = 1 ∧ exp = now + l.window
            else c = c0 + 1 ∧ exp = e0)) ∧
    (Limiter.allowRun ⟨true, 5, 60000⟩ [] "login:email:a@b.com"
        [0, 0, 0, 0, 0, 0, 60001]).1 =
      [(true, 60000), (true, 60000), (true, 60000), (true, 60000),
       (true, 60000), (false, 60000), (true, 60000)] := by
  refine ⟨?_, by decide⟩
  unfold Limiter.allow
  rw [if_neg (by simp [hc]), if_neg (by omega : ¬ l.limit ≤ 0),
    if_neg (by omega : ¬ l.window ≤ 0)]
  unfold runAllowScript
  cases hf : rlFind items key with
  | none =>
      dsimp only
      rw [hf]
      dsimp only
      rw [if_neg (by omega : ¬ (1 : Int) > l.limit)]
      refine ⟨1, now + l.window, by simp [rlFind], ?_, rfl, by omega, ?_⟩
      · simp
        omega
      · exact ⟨rfl, rfl⟩
  | some p =>
      obtain ⟨c0, e0⟩ := p
      dsimp only
      by_cases hp : now ≥ e0
      · rw [if_pos hp, rlFind_rlRemove items key]
        dsimp only
        rw [if_neg (by omega : ¬ (1 : Int) > l.limit)]
        refine ⟨1, now + l.window, by simp [rlFind], ?_, rfl, by omega, ?_⟩
        · simp
          omega
        · rw [if_pos hp]
          exact ⟨rfl, rfl⟩
      · rw [if_neg hp]
        rw [hf]
        dsimp only
        by_cases hgt : c0 + 1 > l.limit
        · rw [if_pos hgt]
          refine ⟨c0 + 1, e0, by simp [rlFind], ?_, rfl, by omega, ?_⟩
          · simp
            omega
          · rw [if_neg hp]
            exact ⟨rfl, rfl⟩
        · rw [if_neg hgt]
          refine ⟨c0 + 1, e0, by simp [rlFind], ?_, rfl, by omega, ?_⟩
          · simp
            omega
          · rw [if_neg hp]
            exact ⟨rfl, rfl⟩

theorem c4_ratelimit_witness :
    (∃ c exp,
       rlFind ((⟨true, 5, 60000⟩ : Limiter).allow [] 0 "k").2 "k" =
         some (c, exp) ∧
       (((⟨true, 5, 60000⟩ : Limiter).allow [] 0 "k").1.1 = false ↔
         (5 : Int) < c) ∧
       ((⟨true, 5, 60000⟩ : Limiter).allow [] 0 "k").1.2 = exp - 0 ∧
       (0 : Int) < exp ∧
       (match rlFind ([] : RLItems) "k" with
        | none => c = 1 ∧ exp = 0 + 60000
        | some (c0, e0) =>
            if (0 : Int) ≥ e0 then c = 1 ∧ exp = 0 + 60000
            else c = c0 + 1 ∧ exp = e0)) ∧
    (Limiter.allowRun ⟨true, 5, 60000⟩ [] "login:email:a@b.com"
        [0, 0, 0, 0, 0, 0, 60001]).1 =
      [(true, 60000), (true, 60000), (true, 60000), (true, 60000),
       (true, 60000), (false, 60000), (true, 60000)] :=
  c4_ratelimit ⟨true, 5, 60000⟩ [] 0 "k" rfl (by decide) (by decide)

theorem login_invalid_credentials (s : AuthService σ) (st : σ) (now : Int)
    (idTok csrfTok : String) (input : LoginInput)
    (hopen : limiterOpen s.limiter)
    (h1 : trimSpace (toLowerStr input.email) ≠ "")
    (h2 : trimSpace input.password ≠ "")
    (h3 : containsChar (trimSpace (toLowerStr input.email)) '@' = true)
    (hbad : ∀ u,
      s.getUserByEmail (trimSpace (toLowerStr input.email)) = some u →
      s.verifyPassword u.passwordHash (trimSpace input.password) = false) :
    (s.login st now idTok csrfTok input).1 =
      .error { kind := .unauthorized, message := "invalid credentials" } := by
  unfold AuthService.login
  dsimp only
  rw [if_neg (by simp [h1, h2]), if_neg (by simp [h3])]
  cases hl : s.limiter with
  | none =>
      dsimp only
      cases hu : s.getUserByEmail (trimSpace (toLowerStr input.email)) with
      | none => rfl
      | some u =>
          dsimp only
          rw [if_pos (by simp [hbad u hu])]
  | some allow =>
      have hopen' : ∀ k, ∃ d, allow k = .ok (true, d) := by
        rw [hl] at hopen
        exact hopen
      obtain ⟨d1, hd1⟩ := hopen' ("login:ip:" ++ input.clientIP)
      obtain ⟨d2, hd2⟩ := hopen' ("login:email:" ++
        trimSpace (toLowerStr input.email))
      dsimp only
      have hip :
          (if trimSpace input.clientIP ≠ "" then
            match allow ("login:ip:" ++ input.clientIP) with
            | .error _ =>
                some ({ kind := Kind.internalErr,
                        message := "rate limit error",
                        retryAfter := 0 } : AppError)
            | .ok (allowed, retryAfter) =>
                if !allowed then
                  some ({ kind := Kind.rateLimited,
                          message := "too many requests",
                          retryAfter := retryAfter } : AppError)
                else none
          else none) = none := by
        by_cases hc : trimSpace input.clientIP ≠ ""
        · rw [if_pos hc, hd1]
          dsimp only
          rw [if_neg (by simp)]
        · rw [if_neg hc]
      rw [hip]
      dsimp only
      rw [hd2]
      dsimp only
      rw [if_neg (by simp)]
      dsimp only
      cases hu : s.getUserByEmail (trimSpace (toLowerStr input.email)) with
      | none => rfl
      | some u =>
          dsimp only
          rw [if_pos (by simp [hbad u hu])]

/-- C8: under the same open rate-limit conditions, `Login` with an email
matching no user and `Login` with an existing email but a wrong password
both return the one `Unauthorized` error with message "invalid credentials"
— byte-identical responses, so the caller cannot tell the cases apart. -/
theorem c8_login_enumeration (s : AuthService σ) (st : σ) (now : Int)
    (idTok csrfTok : String) (inA inB : LoginInput) (u : User)
    (hopen : limiterOpen s.limiter)
    (hA1 : trimSpace (toLowerStr inA.email) ≠ "")
    (hA2 : trimSpace inA.password ≠ "")
    (hA3 : containsChar (trimSpace (toLowerStr inA.email)) '@' = true)
    (hAu : s.getUserByEmail (trimSpace (toLowerStr inA.email)) = none)
    (hB1 : trimSpace (toLowerStr inB.email) ≠ "")
    (hB2 : trimSpace inB.password ≠ "")
    (hB3 : containsChar (trimSpace (toLowerStr inB.email)) '@' = true)
    (hBu : s.getUserByEmail (trimSpace (toLowerStr inB.email)) = some u)
    (hBp : s.verifyPassword u.passwordHash (trimSpace inB.password) = false) :
    (s.login st now idTok csrfTok inA).1 =
      .error { kind := .unauthorized, message := "invalid credentials" } ∧
    (s.login st now idTok csrfTok inB).1 =
      .error { kind := .unauthorized, message := "invalid credentials" } ∧
    (s.login st now idTok csrfTok inA).1 =
      (s.login st now idTok csrfTok inB).1 := by
  have hA := login_invalid_credentials s st now idTok csrfTok inA hopen
    hA1 hA2 hA3 (by intro v hv; rw [hAu] at hv; cases hv)
  have hB := login_invalid_credentials s st now idTok csrfTok inB hopen
    hB1 hB2 hB3 (by
      intro v hv
      rw [hBu] at hv
      cases hv
      exact hBp)
  exact ⟨hA, hB, by rw [hA, hB]⟩

theorem c8_login_enumeration_witness :
    ((AuthService.login
        ⟨fun e => if e = "bob@x.io" then
            some { id := "u1", email := "bob@x.io", passwordHash := "h1",
                   role := "member" }
          else none,
         ⟨memoryStore, 3600, 28800, 600⟩, none,
         fun hashed plain => hashed == "h1" && plain == "right"⟩
        [] 1 "id" "cs" { email := "ann@x.io", password := "pw",
                         clientIP := "1.2.3.4" }).1 =
      .error { kind := .unauthorized, message := "invalid credentials" }) ∧
    ((AuthService.login
        ⟨fun e => if e = "bob@x.io" then
            some { id := "u1", email := "bob@x.io", passwordHash := "h1",
                   role := "member" }
          else none,
         ⟨memoryStore, 3600, 28800, 600⟩, none,
         fun hashed plain => hashed == "h1" && plain == "right"⟩
        [] 1 "id" "cs" { email := "BOB@x.io", password := "wrong",
                         clientIP := "1.2.3.4" }).1 =
      .error { kind := .unauthorized, message := "invalid credentials" }) := by
  have h := c8_login_enumeration
    (σ := MemItems)
    ⟨fun e => if e = "bob@x.io" then
        some { id := "u1", email := "bob@x.io", passwordHash := "h1",
               role := "member" }
      else none,
     ⟨memoryStore, 3600, 28800, 600⟩, none,
     fun hashed plain => hashed == "h1" && plain == "right"⟩
    [] 1 "id" "cs"
    { email := "ann@x.io", password := "pw", clientIP := "1.2.3.4" }
    { email := "BOB@x.io", password := "wrong", clientIP := "1.2.3.4" }
    { id := "u1", email := "bob@x.io", passwordHash := "h1",
      role := "member" }
    trivial (by decide) (by decide) (by decide) (by decide) (by decide)
    (by decide) (by decide) (by decide) (by decide)
  exact ⟨h.1, h.2.1⟩

/-- C9: when API-key auth is allowed and an API-key-shaped credential is
present, the middleware authenticates it via `AuthenticateAPIKey` — the
outcome never depends on the CSRF header; otherwise, with session auth
allowed, it reads the session cookie and calls `AuthenticateSession`; when
session auth is not allowed it writes a plain 401; any authentication error
is written back as-is and the downstream handler is never invoked. -/
theorem c9_middleware (auth : Authenticator) (opts : AuthOptions)
    (r : Request) (csrfA csrfB : String) (p : Principal) (e e' : AppError)
    (sess : SessionInfo) (refreshed : Bool) :
    (opts.allowAPIKey = true → apiKeyFromRequest r ≠ "" →
       (authMiddleware (some auth) opts { r with xCsrfToken := csrfA } =
          authMiddleware (some auth) opts { r with xCsrfToken := csrfB }) ∧
       (auth.authAPIKey (apiKeyFromRequest r) r.method = .ok p →
          authMiddleware (some auth) opts r = .handler p.userID p.role false) ∧
       (auth.authAPIKey (apiKeyFromRequest r) r.method = .error e →
          authMiddleware (some auth) opts r = .appError e)) ∧
    ((opts.allowAPIKey = true → apiKeyFromRequest r = "") →
       (opts.allowSession = true →
         (auth.authSession
             (cookieValue r.cookies
               (if opts.cookieName = "" then "sniply_session"
                else opts.cookieName))
             r.xCsrfToken r.method = .ok (sess, refreshed) →
           authMiddleware (some auth) opts r =
             .handler sess.userID sess.role refreshed) ∧
         (auth.authSession
             (cookieValue r.cookies
               (if opts.cookieName = "" then "sniply_session"
                else opts.cookieName))
             r.xCsrfToken r.method = .error e →
           authMiddleware (some auth) opts r = .appError e)) ∧
       (opts.allowSession = false →
         authMiddleware (some auth) opts r = .plainError 401 "unauthorized")) ∧
    (∀ u ro c, authMiddleware (some auth) opts r = .appError e' →
       authMiddleware (some auth) opts r ≠ .handler u ro c) := by
  refine ⟨?_, ?_, ?_⟩
  · intro ha htok
    have hred : ∀ csrf,
        authMiddleware (some auth) opts { r with xCsrfToken := csrf } =
          match auth.authAPIKey (apiKeyFromRequest r) r.method with
          | .error e0 => .appError e0
          | .ok p0 => .handler p0.userID p0.role false := by
      intro csrf
      unfold authMiddleware
      dsimp only
      rw [if_pos ⟨ha, htok⟩]
      rfl
    refine ⟨(hred csrfA).trans (hred csrfB).symm, ?_, ?_⟩
    · intro hok
      have h0 : authMiddleware (some auth) opts r =
          authMiddleware (some auth) opts { r with xCsrfToken := r.xCsrfToken }
        := rfl
      rw [h0, hred r.xCsrfToken, hok]
    · intro herr
      have h0 : authMiddleware (some auth) opts r =
          authMiddleware (some auth) opts { r with xCsrfToken := r.xCsrfToken }
        := rfl
      rw [h0, hred r.xCsrfToken, herr]
  · intro hnotok
    have hcond : ¬(opts.allowAPIKey = true ∧ apiKeyFromRequest r ≠ "") := by
      rintro ⟨ha, htok⟩
      exact htok (hnotok ha)
    constructor
    · intro hses
      constructor
      · intro hok
        unfold authMiddleware
        dsimp only
        rw [if_neg hcond, if_neg (by simp [hses]), hok]
      · intro herr
        unfold authMiddleware
        dsimp only
        rw [if_neg hcond, if_neg (by simp [hses]), herr]
    · intro hses
      unfold authMiddleware
      dsimp only
      rw [if_neg hcond, if_pos (by simp [hses])]
  · intro u ro c hErr
    rw [hErr]
    simp

theorem c9_middleware_witness :
    authMiddleware
        (some ⟨fun t _ => if t = "key-1" then
            .ok { userID := "u1", role := "member" }
          else .error { kind := .unauthorized, message := "unauthorized" },
          fun sid _ _ => if sid = "sid-1" then
            .ok ({ id := "ses_1", userID := "u2", role := "member",
                   csrfToken := "cs", expiresAt := 99 }, true)
          else .error { kind := .unauthorized, message := "unauthorized" }⟩)
        ⟨true, true, ""⟩
        { method := "POST", xApiKey := "key-1", authorization := "",
          xCsrfToken := "anything", cookies := [] } =
      .handler "u1" "member" false ∧
    authMiddleware
        (some ⟨fun t _ => if t = "key-1" then
            .ok { userID := "u1", role := "member" }
          else .error { kind := .unauthorized, message := "unauthorized" },
          fun sid _ _ => if sid = "sid-1" then
            .ok ({ id := "ses_1", userID := "u2", role := "member",
                   csrfToken := "cs", expiresAt := 99 }, true)
          else .error { kind := .unauthorized, message := "unauthorized" }⟩)
        ⟨true, true, ""⟩
        { method := "POST", xApiKey := "", authorization := "",
          xCsrfToken := "cs", cookies := [("sniply_session", "sid-1")] } =
      .handler "u2" "member" true := by
  constructor
  · exact ((c9_middleware
      ⟨fun t _ => if t = "key-1" then
          .ok { userID := "u1", role := "member" }
        else .error { kind := .unauthorized, message := "unauthorized" },
        fun sid _ _ => if sid = "sid-1" then
          .ok ({ id := "ses_1", userID := "u2", role := "member",
                 csrfToken := "cs", expiresAt := 99 }, true)
        else .error { kind := .unauthorized, message := "unauthorized" }⟩
      ⟨true, true, ""⟩
      { method := "POST", xApiKey := "key-1", authorization := "",
        xCsrfToken := "anything", cookies := [] }
      "a" "b" { userID := "u1", role := "member" }
      { kind := .unauthorized, message := "unauthorized" }
      { kind := .unauthorized, message := "unauthorized" }
      { id := "ses_1", userID := "u2", role := "member",
        csrfToken := "cs", expiresAt := 99 } true).1
      rfl (by decide)).2.1 rfl
  · exact (((c9_middleware
      ⟨fun t _ => if t = "key-1" then
          .ok { userID := "u1", role := "member" }
        else .error { kind := .unauthorized, message := "unauthorized" },
        fun sid _ _ => if sid = "sid-1" then
          .ok ({ id := "ses_1", userID := "u2", role := "member",
                 csrfToken := "cs", expiresAt := 99 }, true)
        else .error { kind := .unauthorized, message := "unauthorized" }⟩
      ⟨true, true, ""⟩
      { method := "POST", xApiKey := "", authorization := "",
        xCsrfToken := "cs", cookies := [("sniply_session", "sid-1")] }
      "a" "b" { userID := "u1", role := "member" }
      { kind := .unauthorized, message := "unauthorized" }
      { kind := .unauthorized, message := "unauthorized" }
      { id := "ses_1", userID := "u2", role := "member",
        csrfToken := "cs", expiresAt := 99 } true).2.1
      (fun _ => rfl)).1 rfl).1 rfl

theorem memFind_mem (items : MemItems) (id : String) (s : Session)
    (h : memFind items id = some s) : (id, s) ∈ items := by
  induction items with
  | nil => cases h
  | cons p rest ih =>
      obtain ⟨k, s0⟩ := p
      by_cases hk : k = id
      · rw [memFind, if_pos hk] at h
        cases h
        subst hk
        exact List.mem_cons_self _ _
      · rw [memFind, if_neg hk] at h
        exact List.mem_cons_of_mem _ (ih h)

theorem mem_memRemove (items : MemItems) (id : String) (p : String × Session)
    (h : p ∈ memRemove items id) : p ∈ items := by
  induction items with
  | nil => cases h
  | cons q rest ih =>
      obtain ⟨k, s0⟩ := q
      by_cases hk : k = id
      · rw [memRemove, if_pos hk] at h
        exact List.mem_cons_of_mem _ (ih h)
      · rw [memRemove, if_neg hk] at h
        rcases List.mem_cons.mp h with h' | h'
        · exact h' ▸ List.mem_cons_self _ _
        · exact List.mem_cons_of_mem _ (ih h')

theorem invSt_memRemove (maxAge ttl : Int) (items : MemItems) (id : String)
    (h : InvSt maxAge ttl items) : InvSt maxAge ttl (memRemove items id) :=
  fun p hp => h p (mem_memRemove items id p hp)

theorem invSt_memSet (maxAge ttl : Int) (items : MemItems) (id : String)
    (s : Session) (h : InvSt maxAge ttl items) (hs : GoodS maxAge ttl s) :
    InvSt maxAge ttl (memSet items id s) := by
  intro p hp
  rcases List.mem_cons.mp hp with h' | h'
  · rw [h']
    exact hs
  · exact h p (mem_memRemove items id p h')

theorem goodS_ensure (m : Manager σ) (s : Session) (now : Int)
    (hs : GoodS m.maxAge m.ttl s) :
    GoodS m.maxAge m.ttl (m.ensureTimestamps s now) := by
  obtain ⟨h1, h2⟩ := hs
  obtain ⟨e1, e2, -⟩ := ensureTimestamps_fields m s now (by omega)
  rw [GoodS, e1, e2]
  exact ⟨h1, h2⟩

theorem create_inv (m : Manager MemItems) (st : MemItems) (now : Int)
    (u role i c : String) (hstore : m.store = memoryStore)
    (hma : 0 < m.maxAge) (hnow : 0 < now)
    (hinv : InvSt m.maxAge m.ttl st) :
    InvSt m.maxAge m.ttl (m.create st now u role i c).2 ∧
    (∀ s, (m.create st now u role i c).1 = .ok s →
      GoodS m.maxAge m.ttl s) := by
  unfold Manager.create
  rw [hstore]
  simp only [memoryStore]
  constructor
  · exact invSt_memSet _ _ _ _ _ hinv ⟨hnow, by dsimp only; omega⟩
  · intro s h
    cases h
    exact ⟨hnow, by dsimp only; omega⟩

theorem get_inv (m : Manager MemItems) (st : MemItems) (now : Int)
    (id : String) (hstore : m.store = memoryStore)
    (hinv : InvSt m.maxAge m.ttl st) :
    InvSt m.maxAge m.ttl (m.get st now id).2 ∧
    (∀ s, (m.get st now id).1 = .ok s → GoodS m.maxAge m.ttl s) := by
  unfold Manager.get
  rw [hstore]
  simp only [memoryStore, memGet]
  cases hf : memFind st id with
  | none => exact ⟨hinv, by intro s h; cases h⟩
  | some s0 =>
      have hg0 : GoodS m.maxAge m.ttl s0 :=
        hinv (id, s0) (memFind_mem st id s0 hf)
      dsimp only
      by_cases he : now > s0.expiresAt
      · rw [if_pos he]
        exact ⟨invSt_memRemove _ _ _ _ hinv, by intro s h; cases h⟩
      · rw [if_neg he]
        dsimp only
        by_cases hcut : m.maxAge > 0 ∧
            now > (m.ensureTimestamps s0 now).createdAt + m.maxAge
        · rw [if_pos hcut]
          exact ⟨invSt_memRemove _ _ _ _ hinv, by intro s h; cases h⟩
        · rw [if_neg hcut]
          refine ⟨hinv, ?_⟩
          intro s h
          cases h
          exact goodS_ensure m s0 now hg0

theorem refresh_inv (m : Manager MemItems) (st : MemItems) (now : Int)
    (sess : Session) (hstore : m.store = memoryStore) (hma : 0 < m.maxAge)
    (hg : GoodS m.maxAge m.ttl sess) (hinv : InvSt m.maxAge m.ttl st) :
    InvSt m.maxAge m.ttl (m.refresh st now sess).2 ∧
    (∀ s b, (m.refresh st now sess).1 = .ok (s, b) →
      GoodS m.maxAge m.ttl s) := by
  unfold Manager.refresh
  by_cases h0 : m.ttl ≤ 0
  · rw [if_pos h0]
    exact ⟨hinv, by intro s b h; cases h; exact hg⟩
  · rw [if_neg h0]
    dsimp only
    have hge : GoodS m.maxAge m.ttl (m.ensureTimestamps sess now) :=
      goodS_ensure m sess now hg
    by_cases hcut : m.maxAge > 0 ∧
        now > (m.ensureTimestamps sess now).createdAt + m.maxAge
    · rw [if_pos hcut, hstore]
      simp only [memoryStore]
      exact ⟨invSt_memRemove _ _ _ _ hinv, by intro s b h; cases h⟩
    · rw [if_neg hcut]
      by_cases hfar : m.refreshBefore > 0 ∧
          (m.ensureTimestamps sess now).expiresAt - now > m.refreshBefore
      · rw [if_pos hfar]
        exact ⟨hinv, by intro s b h; cases h; exact hge⟩
      · rw [if_neg hfar, hstore]
        simp only [memoryStore]
        have hnowle : now ≤ (m.ensureTimestamps sess now).createdAt + m.maxAge
          := by
          by_contra hlt
          exact hcut ⟨hma, by omega⟩
        have hgood : GoodS m.maxAge m.ttl
            { m.ensureTimestamps sess now with
              expiresAt := now + m.ttl, lastRefreshedAt := now } := by
          obtain ⟨hc, -⟩ := hge
          exact ⟨hc, by simp; omega⟩
        refine ⟨invSt_memSet _ _ _ _ _ hinv hgood, ?_⟩
        intro s b h
        cases h
        exact hgood

theorem runOp_inv (m : Manager MemItems) (st : MemItems) (op : TraceOp)
    (hstore : m.store = memoryStore) (hma : 0 < m.maxAge)
    (hwf : opWF op = true) (hinv : InvSt m.maxAge m.ttl st) :
    InvSt m.maxAge m.ttl (runOp m st op).1 ∧
    (∀ s ∈ (runOp m st op).2, GoodS m.maxAge m.ttl s) := by
  cases op with
  | create now u role i c =>
      have hnow : 0 < now := by
        simpa [opWF] using hwf
      obtain ⟨hi, ho⟩ := create_inv m st now u role i c hstore hma hnow hinv
      simp only [runOp]
      cases hc : m.create st now u role i c with
      | mk res st' =>
          rw [hc] at hi
          cases res with
          | ok s =>
              refine ⟨hi, ?_⟩
              intro x hx
              rw [List.mem_singleton] at hx
              subst hx
              exact ho x (by rw [hc])
          | error e =>
              exact ⟨hi, by intro x hx; cases hx⟩
  | get now id =>
      obtain ⟨hi, ho⟩ := get_inv m st now id hstore hinv
      simp only [runOp]
      cases hc : m.get st now id with
      | mk res st' =>
          rw [hc] at hi
          cases res with
          | ok s =>
              refine ⟨hi, ?_⟩
              intro x hx
              rw [List.mem_singleton] at hx
              subst hx
              exact ho x (by rw [hc])
          | error e =>
              exact ⟨hi, by intro x hx; cases hx⟩
  | touch now id =>
      obtain ⟨hi, ho⟩ := get_inv m st now id hstore hinv
      simp only [runOp]
      cases hc : m.get st now id with
      | mk res st' =>
          rw [hc] at hi
          cases res with
          | ok s =>
              dsimp only
              have hgs : GoodS m.maxAge m.ttl s := ho s (by rw [hc])
              obtain ⟨hi2, ho2⟩ := refresh_inv m st' now s hstore hma hgs hi
              cases hr : m.refresh st' now s with
              | mk res2 st2 =>
                  rw [hr] at hi2
                  cases res2 with
                  | ok pr =>
                      obtain ⟨s2, b2⟩ := pr
                      refine ⟨hi2, ?_⟩
                      intro x hx
                      rcases List.mem_cons.mp hx with h' | h'
                      · subst h'
                        exact hgs
                      · rw [List.mem_singleton] at h'
                        subst h'
                        exact ho2 x b2 (by rw [hr])
                  | error e =>
                      refine ⟨hi2, ?_⟩
                      intro x hx
                      rw [List.mem_singleton] at hx
                      subst hx
                      exact hgs
          | error e =>
              exact ⟨hi, by intro x hx; cases hx⟩
  | del now id =>
      simp only [runOp]
      unfold Manager.delete
      rw [hstore]
      simp only [memoryStore]
      exact ⟨invSt_memRemove _ _ _ _ hinv, by intro x hx; cases hx⟩

theorem runTrace_inv (m : Manager MemItems) (ops : List TraceOp)
    (st : MemItems) (hstore : m.store = memoryStore) (hma : 0 < m.maxAge)
    (hwf : ∀ op ∈ ops, opWF op = true) (hinv : InvSt m.maxAge m.ttl st) :
    InvSt m.maxAge m.ttl (runTrace m st ops).1 ∧
    (∀ s ∈ (runTrace m st ops).2, GoodS m.maxAge m.ttl s) := by
  induction ops generalizing st with
  | nil => exact ⟨hinv, by intro s hs; cases hs⟩
  | cons op rest ih =>
      obtain ⟨hi1, ho1⟩ := runOp_inv m st op hstore hma
        (hwf op (List.mem_cons_self _ _)) hinv
      obtain ⟨hi2, ho2⟩ := ih (runOp m st op).1
        (fun o hm => hwf o (List.mem_cons_of_mem _ hm)) hi1
      refine ⟨?_, ?_⟩
      · unfold runTrace
        dsimp only
        exact hi2
      · intro s hs
        unfold runTrace at hs
        dsimp only at hs
        rcases List.mem_append.mp hs with h' | h'
        · exact ho1 s h'
        · exact ho2 s h'

/-- C1 counterexample: with the spec's own scenario configuration
(TTL = 1h, MaxAge = 8h, RefreshBefore = 10m, in seconds), a session created
at t = 1 and then observed through eight routine `Get`+`Refresh` steps —
each performed while the session was still live and within `MaxAge` — is
handed out with `ExpiresAt = 30001 > CreatedAt + MaxAge = 28801`, so
`ExpiresAt ≤ CreatedAt + MaxAge` does not hold at every observed point. -/
theorem c1_counterexample :
    ((runTrace (⟨memoryStore, 3600, 28800, 600⟩ : Manager MemItems) []
        [.create 1 "u" "member" "id" "cs",
         .touch 3301 "ses_id", .touch 6601 "ses_id", .touch 9901 "ses_id",
         .touch 13201 "ses_id", .touch 16501 "ses_id", .touch 19801 "ses_id",
         .touch 23101 "ses_id", .touch 26401 "ses_id"]).2.any
      (fun s => decide (s.createdAt + 28800 < s.expiresAt))) = true := by
  decide

/-- C1 (amended): across every sequence of `Create`/`Get`/`Refresh`/`Delete`
observations (`MaxAge > 0`, clock readings positive), each session the
manager hands out satisfies `ExpiresAt ≤ CreatedAt + MaxAge + TTL`; the
bound `CreatedAt + MaxAge` alone holds only up to one extra `TTL`, because
`Refresh` slides the expiry to `now + TTL` for any `now` still within the
`MaxAge` window. -/
theorem c1_expiry_bound (m : Manager MemItems) (ops : List TraceOp)
    (hstore : m.store = memoryStore) (hma : 0 < m.maxAge)
    (hwf : ∀ op ∈ ops, opWF op = true) :
    ∀ s ∈ (runTrace m [] ops).2,
      s.expiresAt ≤ s.createdAt + m.maxAge + m.ttl := by
  intro s hs
  exact ((runTrace_inv m ops [] hstore hma hwf
    (by intro p hp; cases hp)).2 s hs).2

theorem c1_expiry_bound_witness :
    ((runTrace (⟨memoryStore, 3600, 28800, 600⟩ : Manager MemItems) []
        [.create 1 "u" "member" "id" "cs",
         .touch 3301 "ses_id", .touch 6601 "ses_id", .touch 9901 "ses_id",
         .touch 13201 "ses_id", .touch 16501 "ses_id", .touch 19801 "ses_id",
         .touch 23101 "ses_id", .touch 26401 "ses_id"]).2.all
      (fun s => decide (s.expiresAt ≤ s.createdAt + 28800 + 3600))) = true := by
  have h := c1_expiry_bound ⟨memoryStore, 3600, 28800, 600⟩
    [.create 1 "u" "member" "id" "cs",
     .touch 3301 "ses_id", .touch 6601 "ses_id", .touch 9901 "ses_id",
     .touch 13201 "ses_id", .touch 16501 "ses_id", .touch 19801 "ses_id",
     .touch 23101 "ses_id", .touch 26401 "ses_id"]
    rfl (by decide) (by decide)
  exact List.all_eq_true.mpr (fun s hs => decide_eq_true (h s hs))

end Sniply
